import Mathlib

/-!
Verification of the FinancialWellnessHub storage layer and advice generator.

The definitions below are a shallow embedding of `src/server/storage.ts` and
`src/server/openai.ts`.  Database tables become Lean lists of rows; a drizzle
`select ... where eq(col, v)` destructured to its first row becomes
`List.find?`; a SQL `update ... where eq(id, v)` becomes a `List.map` that
rewrites every row whose id matches; `orderBy(desc(date))`, and the JS
`Array.sort` comparator `(a, b) => b.date - a.date`, become a sort by
descending date.  Monetary values, which the source carries as decimal strings
and combines with JS number arithmetic, are embedded as exact rationals; the
floating-point rounding of that arithmetic is deliberately out of the model.
`db.transaction` blocks either commit every write or (on a thrown error) none,
so a failing operation returns an error and the caller keeps the old state.
-/

namespace NeuroBank

/-- A row of the `bank_accounts` table (`shared/schema` fields used by the
storage layer). -/
structure BankAccount where
  id : Nat
  userId : Nat
  accountNumber : String
  balance : Rat
  deriving Repr, DecidableEq

/-- Transaction type: the `type` column, `'debit'` or `'credit'`. -/
inductive TxType where
  | debit
  | credit
  deriving Repr, DecidableEq

/-- A row of the `transactions` table (a ledger entry). -/
structure Transaction where
  id : Nat
  accountId : Nat
  amount : Rat
  description : String
  category : String
  merchant : String
  txType : TxType
  date : Int
  deriving Repr, DecidableEq

/-- A row of the `saving_goals` table. -/
structure SavingGoal where
  id : Nat
  userId : Nat
  name : String
  targetAmount : Rat
  currentAmount : Rat
  completed : Bool
  deriving Repr, DecidableEq

/-- A row of the `journal_entries` table. -/
structure JournalEntry where
  id : Nat
  userId : Nat
  mood : String
  date : Int
  deriving Repr, DecidableEq

/-- A row of the `ai_advices` table. -/
structure AiAdvice where
  id : Nat
  userId : Nat
  date : Int
  deriving Repr, DecidableEq

/-- The database state seen by `DatabaseStorage`. -/
structure Storage where
  accounts : List BankAccount
  transactions : List Transaction
  goals : List SavingGoal
  journal : List JournalEntry
  advices : List AiAdvice
  deriving Repr, DecidableEq

/-- `SELECT ... FROM bank_accounts WHERE id = accountId`, destructured to its
first row as `const [account] = ...` does. -/
def findAccount (accs : List BankAccount) (accountId : Nat) : Option BankAccount :=
  accs.find? (fun a => a.id == accountId)

/-- `UPDATE bank_accounts SET balance = b WHERE id = accountId`: every row
whose id matches gets the new balance. -/
def updateBalance (accs : List BankAccount) (accountId : Nat) (b : Rat) :
    List BankAccount :=
  accs.map (fun a => if a.id == accountId then { a with balance := b } else a)

/-- The balance the storage layer currently reports for an account id. -/
def accountBalance (s : Storage) (accountId : Nat) : Option Rat :=
  (findAccount s.accounts accountId).map BankAccount.balance

/-- `accountNumber.substring(accountNumber.length - 4)` (JS clamps a negative
start index to 0, as `Nat` subtraction does). -/
def lastFour (s : String) : String :=
  (s.toList.drop (s.toList.length - 4)).asString

/-- Errors `transferFunds` throws. -/
inductive TransferError where
  | accountNotFound
  | insufficientFunds
  deriving Repr, DecidableEq

/-- `DatabaseStorage.transferFunds` (`src/server/storage.ts`).  Looks up both
accounts, throws if either is missing, throws if the source balance is below
the amount, then inserts the debit and credit ledger entries and writes the
two balances — the target write using the target balance read at the start.
Inserted rows get fresh serial ids and `date` defaults to the current time
`now`. -/
def transferFunds (s : Storage) (fromAccountId toAccountId : Nat) (amount : Rat)
    (description : String) (now : Int) :
    Except TransferError (Storage × Transaction × Transaction) :=
  match findAccount s.accounts fromAccountId, findAccount s.accounts toAccountId with
  | some sourceAccount, some targetAccount =>
    if sourceAccount.balance < amount then
      Except.error TransferError.insufficientFunds
    else
      let sourceTransaction : Transaction :=
        { id := s.transactions.length + 1
          accountId := fromAccountId
          amount := amount
          description := "Transfer: " ++ description
          category := "Transfer"
          merchant := "NeuroBank"
          txType := TxType.debit
          date := now }
      let targetTransaction : Transaction :=
        { id := s.transactions.length + 2
          accountId := toAccountId
          amount := amount
          description := "Transfer from account " ++ lastFour sourceAccount.accountNumber
          category := "Transfer"
          merchant := "NeuroBank"
          txType := TxType.credit
          date := now }
      let s1 : Storage :=
        { s with transactions := s.transactions ++ [sourceTransaction, targetTransaction] }
      let s2 : Storage :=
        { s1 with accounts :=
            updateBalance s1.accounts fromAccountId (sourceAccount.balance - amount) }
      let s3 : Storage :=
        { s2 with accounts :=
            updateBalance s2.accounts toAccountId (targetAccount.balance + amount) }
      Except.ok (s3, sourceTransaction, targetTransaction)
  | _, _ => Except.error TransferError.accountNotFound

/-- The database state after a `transferFunds` call: a thrown error rolls the
enclosing `db.transaction` back, so the caller keeps the old state. -/
def runTransfer (s : Storage) (fromAccountId toAccountId : Nat) (amount : Rat)
    (description : String) (now : Int) : Storage :=
  match transferFunds s fromAccountId toAccountId amount description now with
  | Except.ok (s2, _, _) => s2
  | Except.error _ => s

/-- `DatabaseStorage.createTransaction` (`src/server/storage.ts`).  Inserts the
ledger entry first, then looks the account up; if the account exists its
balance is moved by the signed amount (`- amount` for a debit, `+ amount` for
a credit), and if it does not exist the balance update is silently skipped.
The inserted transaction is returned either way. -/
def createTransaction (s : Storage) (accountId : Nat) (amount : Rat)
    (txType : TxType) (description category merchant : String) (now : Int) :
    Storage × Transaction :=
  let newTransaction : Transaction :=
    { id := s.transactions.length + 1
      accountId := accountId
      amount := amount
      description := description
      category := category
      merchant := merchant
      txType := txType
      date := now }
  let s1 : Storage := { s with transactions := s.transactions ++ [newTransaction] }
  match findAccount s1.accounts accountId with
  | some account =>
    let newBalance : Rat :=
      match txType with
      | TxType.debit => account.balance - amount
      | TxType.credit => account.balance + amount
    ({ s1 with accounts := updateBalance s1.accounts accountId newBalance }, newTransaction)
  | none => (s1, newTransaction)

/-- `DatabaseStorage.updateSavingGoal` (`src/server/storage.ts`).  Finds the
goal (returning `none` when it is missing), adds the deposit to the current
amount and recomputes the completion flag, writing both fields back and
returning the updated row. -/
def updateSavingGoal (s : Storage) (goalId : Nat) (amount : Rat) :
    Option (Storage × SavingGoal) :=
  match s.goals.find? (fun g => g.id == goalId) with
  | none => none
  | some goal =>
    let newAmount : Rat := goal.currentAmount + amount
    let updatedGoal : SavingGoal :=
      { goal with
          currentAmount := newAmount
          completed := decide (goal.targetAmount ≤ newAmount) }
    let newGoals : List SavingGoal :=
      s.goals.map (fun g =>
        if g.id == goalId then
          { g with
              currentAmount := newAmount
              completed := decide (goal.targetAmount ≤ newAmount) }
        else g)
    some ({ s with goals := newGoals }, updatedGoal)

/-! ### Dominant mood (`src/server/openai.ts`, `generateFinancialAdvice`) -/

/-- One step of `moodCounts[entry.mood] = (moodCounts[entry.mood] || 0) + 1`:
bump the tally of `m`, appending a fresh key at the end when absent — JS
objects keep string keys in insertion order, which the association list
mirrors. -/
def bumpMood : List (String × Nat) → String → List (String × Nat)
  | [], m => [(m, 1)]
  | (k, v) :: rest, m =>
    if k = m then (k, v + 1) :: rest else (k, v) :: bumpMood rest m

/-- The `moodCounts` object after the `forEach` over the recent entries. -/
def moodCounts (moods : List String) : List (String × Nat) :=
  moods.foldl bumpMood []

/-- The `for (const [mood, count] of Object.entries(moodCounts))` loop with
its strict `count > maxCount` update. -/
def selectMood : String → Nat → List (String × Nat) → String
  | best, _, [] => best
  | best, maxCount, (m, c) :: rest =>
    if maxCount < c then selectMood m c rest else selectMood best maxCount rest

/-- The moods of the five most recent journal entries
(`context.journalEntries.slice(0, 5)`, entries arriving newest first). -/
def recentMoods (entries : List JournalEntry) : List String :=
  (entries.take 5).map JournalEntry.mood

/-- `primaryMood` as computed by `generateFinancialAdvice`: `"neutral"` when
there are no recent entries, otherwise the result of the counting loop
starting from `primaryMood = "neutral"`, `maxCount = 0`. -/
def primaryMood (entries : List JournalEntry) : String :=
  let recent := recentMoods entries
  if recent.isEmpty then "neutral"
  else selectMood "neutral" 0 (moodCounts recent)

/-- The tally a JS `moodCounts[x] || 0` read would see in the association
list (first binding wins, 0 when absent). -/
def lookupCount : List (String × Nat) → String → Nat
  | [], _ => 0
  | (k, v) :: rest, m => if k = m then v else lookupCount rest m

/-- The keys of the association list, in `Object.entries` order. -/
def keysOf (acc : List (String × Nat)) : List String :=
  acc.map Prod.fst

/-- Index of the first occurrence of `x` in `l` (length of `l` when absent):
the position at which a mood is first encountered. -/
def firstIdx : List String → String → Nat
  | [], _ => 0
  | a :: t, x => if a = x then 0 else firstIdx t x + 1

/-- Invariant tying the mood-count association list to the mood list it was
built from: tallies are occurrence counts, keys are exactly the moods seen,
each key appears once, and keys are listed in first-encountered order. -/
structure CountsInv (l : List String) (acc : List (String × Nat)) : Prop where
  lookup_eq : ∀ x, lookupCount acc x = l.count x
  keys_nodup : (keysOf acc).Nodup
  mem_keys_iff : ∀ x, x ∈ keysOf acc ↔ x ∈ l
  keys_ordered : (keysOf acc).Pairwise (fun a b => firstIdx l a < firstIdx l b)

/-! ### Read helpers sorted newest first (`src/server/storage.ts`) -/

/-- Descending-date order on ledger entries: `orderBy(desc(transactions.date))`
and the comparator `(a, b) => b.date - a.date`. -/
def txByDateDesc (a b : Transaction) : Prop := b.date ≤ a.date

instance : DecidableRel txByDateDesc := fun a b =>
  inferInstanceAs (Decidable (b.date ≤ a.date))

instance : IsTotal Transaction txByDateDesc :=
  ⟨fun a b => Int.le_total b.date a.date⟩

instance : IsTrans Transaction txByDateDesc :=
  ⟨fun _ _ _ hab hbc => le_trans hbc hab⟩

/-- Descending-date order on journal entries (`orderBy(desc(journalEntries.date))`). -/
def jeByDateDesc (a b : JournalEntry) : Prop := b.date ≤ a.date

instance : DecidableRel jeByDateDesc := fun a b =>
  inferInstanceAs (Decidable (b.date ≤ a.date))

instance : IsTotal JournalEntry jeByDateDesc :=
  ⟨fun a b => Int.le_total b.date a.date⟩

instance : IsTrans JournalEntry jeByDateDesc :=
  ⟨fun _ _ _ hab hbc => le_trans hbc hab⟩

/-- Descending-date order on advice rows (`orderBy(desc(aiAdvices.date))`). -/
def aiByDateDesc (a b : AiAdvice) : Prop := b.date ≤ a.date

instance : DecidableRel aiByDateDesc := fun a b =>
  inferInstanceAs (Decidable (b.date ≤ a.date))

instance : IsTotal AiAdvice aiByDateDesc :=
  ⟨fun a b => Int.le_total b.date a.date⟩

instance : IsTrans AiAdvice aiByDateDesc :=
  ⟨fun _ _ _ hab hbc => le_trans hbc hab⟩

/-- `getTransactionsByAccountId`: the account's rows ordered by descending
date (the SQL sort is modelled as an insertion sort under `txByDateDesc`). -/
def getTransactionsByAccountId (table : List Transaction) (accountId : Nat) :
    List Transaction :=
  List.insertionSort txByDateDesc (table.filter (fun t => t.accountId == accountId))

/-- `getTransactionsByUserId`: per-account fetches pushed into one list, then
sorted by the `(a, b) => b.date - a.date` comparator. -/
def getTransactionsByUserId (accounts : List BankAccount)
    (table : List Transaction) (userId : Nat) : List Transaction :=
  let userAccounts := accounts.filter (fun a => a.userId == userId)
  let allTransactions :=
    userAccounts.foldl (fun acc a => acc ++ getTransactionsByAccountId table a.id) []
  List.insertionSort txByDateDesc allTransactions

/-- `getJournalEntriesByUserId`: the user's entries ordered by descending date. -/
def getJournalEntriesByUserId (table : List JournalEntry) (userId : Nat) :
    List JournalEntry :=
  List.insertionSort jeByDateDesc (table.filter (fun e => e.userId == userId))

/-- `getAiAdvicesByUserId`: the user's advice rows ordered by descending date. -/
def getAiAdvicesByUserId (table : List AiAdvice) (userId : Nat) :
    List AiAdvice :=
  List.insertionSort aiByDateDesc (table.filter (fun a => a.userId == userId))

/-- A list is newest first when each element's date is at least the next
element's date. -/
def DateSortedTx (l : List Transaction) : Prop :=
  ∀ i (h : i + 1 < l.length),
    (l.get ⟨i + 1, h⟩).date ≤ (l.get ⟨i, Nat.lt_of_succ_lt h⟩).date

/-- Newest-first predicate for journal entries. -/
def DateSortedJe (l : List JournalEntry) : Prop :=
  ∀ i (h : i + 1 < l.length),
    (l.get ⟨i + 1, h⟩).date ≤ (l.get ⟨i, Nat.lt_of_succ_lt h⟩).date

/-- Newest-first predicate for advice rows. -/
def DateSortedAi (l : List AiAdvice) : Prop :=
  ∀ i (h : i + 1 < l.length),
    (l.get ⟨i + 1, h⟩).date ≤ (l.get ⟨i, Nat.lt_of_succ_lt h⟩).date

/-! ### Sample data for concrete witnesses -/

/-- Sample checking account with balance 100. -/
def acctA : BankAccount := { id := 1, userId := 1, accountNumber := "12345678", balance := 100 }

/-- Sample savings account with balance 50. -/
def acctB : BankAccount := { id := 2, userId := 1, accountNumber := "87654321", balance := 50 }

/-- Sample goal: target 500, current 450, not yet completed. -/
def goalG : SavingGoal :=
  { id := 1, userId := 1, name := "Vacation", targetAmount := 500, currentAmount := 450,
    completed := false }

/-- Sample journal entry, newest, mood happy. -/
def jeHappy1 : JournalEntry := { id := 1, userId := 1, mood := "happy", date := 3 }

/-- Sample journal entry, middle, mood sad. -/
def jeSad : JournalEntry := { id := 2, userId := 1, mood := "sad", date := 2 }

/-- Sample journal entry, oldest, mood happy. -/
def jeHappy2 : JournalEntry := { id := 3, userId := 1, mood := "happy", date := 1 }

/-- A database holding the two sample accounts. -/
def sampleStorage : Storage :=
  { accounts := [acctA, acctB], transactions := [], goals := [], journal := [], advices := [] }

/-- A database holding only the sample goal. -/
def goalStorage : Storage :=
  { accounts := [], transactions := [], goals := [goalG], journal := [], advices := [] }

/-- An entirely empty database. -/
def emptyStorage : Storage :=
  { accounts := [], transactions := [], goals := [], journal := [], advices := [] }

/-! ### Helper lemmas about row lookup and row update -/

/-- A row returned by `findAccount` carries the id it was looked up by. -/
theorem findAccount_id (accs : List BankAccount) (n : Nat) (a : BankAccount)
    (h : findAccount accs n = some a) : a.id = n := by
  have := List.find?_some h
  simpa using this

/-- `find?` by a numeric key commutes with mapping a key-preserving row
update over the table. -/
theorem find?_map_of_key {α : Type} (key : α → Nat) (f : α → α)
    (hf : ∀ a, key (f a) = key a) (n : Nat) :
    ∀ l : List α, (l.map f).find? (fun a => key a == n) =
      (l.find? (fun a => key a == n)).map f
  | [] => rfl
  | a :: t => by
    by_cases h : key a = n
    · simp [List.find?_cons, hf, h]
    · simp [List.find?_cons, hf, h, find?_map_of_key key f hf n t]

/-- Looking an account up after `updateBalance`: the found row is the old row,
with the new balance exactly when its id is the updated one. -/
theorem findAccount_updateBalance (accs : List BankAccount) (uid n : Nat) (b : Rat) :
    findAccount (updateBalance accs uid b) n =
      (findAccount accs n).map
        (fun a => if a.id == uid then { a with balance := b } else a) := by
  exact find?_map_of_key BankAccount.id _ (fun a => by by_cases h : a.id = uid <;> simp [h]) n accs

/-! ### C1, C2, C3 — `transferFunds` -/

/-- C1: when both accounts exist, are distinct, and the source balance covers
the amount, `transferFunds` succeeds; afterwards the source balance is the
old balance minus the amount, the target balance is the old balance plus the
amount, and the two created ledger entries — a debit on the source and a
credit on the target, appended to the ledger — both carry exactly the
transfer amount. -/
theorem transferFunds_valid (s : Storage) (fromAccountId toAccountId : Nat)
    (amount : Rat) (description : String) (now : Int) (src tgt : BankAccount)
    (hs : findAccount s.accounts fromAccountId = some src)
    (ht : findAccount s.accounts toAccountId = some tgt)
    (hne : fromAccountId ≠ toAccountId)
    (hba : amount ≤ src.balance) :
    ∃ s3 dTx cTx,
      transferFunds s fromAccountId toAccountId amount description now =
        Except.ok (s3, dTx, cTx) ∧
      accountBalance s3 fromAccountId = some (src.balance - amount) ∧
      accountBalance s3 toAccountId = some (tgt.balance + amount) ∧
      dTx.amount = amount ∧ cTx.amount = amount ∧
      dTx.txType = TxType.debit ∧ cTx.txType = TxType.credit ∧
      dTx.accountId = fromAccountId ∧ cTx.accountId = toAccountId ∧
      s3.transactions = s.transactions ++ [dTx, cTx] := by
  have hsid : src.id = fromAccountId := findAccount_id _ _ _ hs
  have htid : tgt.id = toAccountId := findAccount_id _ _ _ ht
  simp only [transferFunds, hs, ht]
  rw [if_neg (not_lt.2 hba)]
  refine ⟨_, _, _, rfl, ?_, ?_, rfl, rfl, rfl, rfl, rfl, rfl, rfl⟩
  · simp [accountBalance, findAccount_updateBalance, hs, hsid, hne]
  · simp [accountBalance, findAccount_updateBalance, ht, htid, Ne.symm hne]

/-- Witness for C1 on the sample accounts: transferring 30 from the balance-100
account to the balance-50 account. -/
theorem transferFunds_valid_witness :
    ∃ s3 dTx cTx,
      transferFunds sampleStorage 1 2 30 "rent" 0 = Except.ok (s3, dTx, cTx) ∧
      accountBalance s3 1 = some (acctA.balance - 30) ∧
      accountBalance s3 2 = some (acctB.balance + 30) ∧
      dTx.amount = 30 ∧ cTx.amount = 30 ∧
      dTx.txType = TxType.debit ∧ cTx.txType = TxType.credit ∧
      dTx.accountId = 1 ∧ cTx.accountId = 2 ∧
      s3.transactions = sampleStorage.transactions ++ [dTx, cTx] :=
  transferFunds_valid sampleStorage 1 2 30 "rent" 0 acctA acctB (by decide) (by decide)
    (by decide) (by decide)

/-- C2: when both accounts exist but the source balance is strictly below the
amount, `transferFunds` throws the insufficient-funds error before writing
anything, so the committed state is exactly the state before the call. -/
theorem transferFunds_insufficient (s : Storage) (fromAccountId toAccountId : Nat)
    (amount : Rat) (description : String) (now : Int) (src tgt : BankAccount)
    (hs : findAccount s.accounts fromAccountId = some src)
    (ht : findAccount s.accounts toAccountId = some tgt)
    (hlt : src.balance < amount) :
    transferFunds s fromAccountId toAccountId amount description now =
      Except.error TransferError.insufficientFunds ∧
    runTransfer s fromAccountId toAccountId amount description now = s := by
  have h1 : transferFunds s fromAccountId toAccountId amount description now =
      Except.error TransferError.insufficientFunds := by
    simp only [transferFunds, hs, ht]
    rw [if_pos hlt]
  exact ⟨h1, by simp [runTransfer, h1]⟩

/-- Witness for C2: transferring 200 out of the balance-100 sample account
fails and leaves the database untouched. -/
theorem transferFunds_insufficient_witness :
    transferFunds sampleStorage 1 2 200 "rent" 0 =
      Except.error TransferError.insufficientFunds ∧
    runTransfer sampleStorage 1 2 200 "rent" 0 = sampleStorage :=
  transferFunds_insufficient sampleStorage 1 2 200 "rent" 0 acctA acctB (by decide)
    (by decide) (by decide)

/-- C3: a transfer from an account to itself (balance covering the positive
amount) succeeds, creates both a debit and a credit entry on that account,
and ends with the balance increased by the amount: the target-balance write
uses the balance read before the source update and overwrites the deduction. -/
theorem transferFunds_same_account (s : Storage) (accountId : Nat) (amount : Rat)
    (description : String) (now : Int) (acc : BankAccount)
    (hs : findAccount s.accounts accountId = some acc)
    (hpos : 0 < amount)
    (hba : amount ≤ acc.balance) :
    ∃ s3 dTx cTx,
      transferFunds s accountId accountId amount description now =
        Except.ok (s3, dTx, cTx) ∧
      dTx.txType = TxType.debit ∧ cTx.txType = TxType.credit ∧
      dTx.accountId = accountId ∧ cTx.accountId = accountId ∧
      dTx.amount = amount ∧ cTx.amount = amount ∧
      s3.transactions = s.transactions ++ [dTx, cTx] ∧
      accountBalance s3 accountId = some (acc.balance + amount) := by
  have hid : acc.id = accountId := findAccount_id _ _ _ hs
  simp only [transferFunds, hs]
  rw [if_neg (not_lt.2 hba)]
  refine ⟨_, _, _, rfl, rfl, rfl, rfl, rfl, rfl, rfl, rfl, ?_⟩
  simp [accountBalance, findAccount_updateBalance, hs, hid]

/-- Witness for C3: a self-transfer of 30 on the balance-100 sample account
ends with balance 130. -/
theorem transferFunds_same_account_witness :
    (∃ s3 dTx cTx,
      transferFunds sampleStorage 1 1 30 "loop" 0 = Except.ok (s3, dTx, cTx) ∧
      dTx.txType = TxType.debit ∧ cTx.txType = TxType.credit ∧
      dTx.accountId = 1 ∧ cTx.accountId = 1 ∧
      dTx.amount = 30 ∧ cTx.amount = 30 ∧
      s3.transactions = sampleStorage.transactions ++ [dTx, cTx] ∧
      accountBalance s3 1 = some (acctA.balance + 30)) :=
  transferFunds_same_account sampleStorage 1 30 "loop" 0 acctA (by decide) (by decide)
    (by decide)

/-! ### C4, C5 — `createTransaction` -/

/-- Counterexample to C4: on an empty database, account 1 does not exist, yet
`createTransaction` inserts a ledger entry (the ledger grows by one) and
returns a transaction record instead of failing. -/
theorem createTransaction_missing_cex :
    findAccount emptyStorage.accounts 1 = none ∧
    ((createTransaction emptyStorage 1 5 TxType.credit "dinner" "Food" "Cafe" 0).1.transactions.length
        = emptyStorage.transactions.length + 1) ∧
    ((createTransaction emptyStorage 1 5 TxType.credit "dinner" "Food" "Cafe" 0).2.amount = 5) :=
  ⟨rfl, rfl, rfl⟩

/-- C4 amended: when the referenced account does not exist, `createTransaction`
does not fail — it inserts the ledger entry, returns the transaction record,
and silently skips the balance update, leaving the accounts untouched. -/
theorem createTransaction_missing_account (s : Storage) (accountId : Nat) (amount : Rat)
    (txType : TxType) (description category merchant : String) (now : Int)
    (h : findAccount s.accounts accountId = none) :
    ∃ t : Transaction,
      createTransaction s accountId amount txType description category merchant now =
        ({ s with transactions := s.transactions ++ [t] }, t) ∧
      t.accountId = accountId ∧ t.amount = amount ∧ t.txType = txType := by
  refine ⟨{ id := s.transactions.length + 1, accountId := accountId, amount := amount,
            description := description, category := category, merchant := merchant,
            txType := txType, date := now }, ?_, rfl, rfl, rfl⟩
  simp [createTransaction, h]

/-- Witness for the amended C4, on the empty database. -/
theorem createTransaction_missing_account_witness :
    ∃ t : Transaction,
      createTransaction emptyStorage 1 5 TxType.credit "dinner" "Food" "Cafe" 0 =
        ({ emptyStorage with transactions := emptyStorage.transactions ++ [t] }, t) ∧
      t.accountId = 1 ∧ t.amount = 5 ∧ t.txType = TxType.credit :=
  createTransaction_missing_account emptyStorage 1 5 TxType.credit "dinner" "Food" "Cafe" 0 rfl

/-- Counterexample to C5: a credit of −5 on the existing balance-100 sample
account raises no invalid-amount error — the ledger entry is inserted and the
balance drops to 95. -/
theorem createTransaction_nonpositive_cex :
    ((-5 : Rat) ≤ 0) ∧
    ((createTransaction sampleStorage 1 (-5) TxType.credit "oops" "Misc" "Shop" 0).1.transactions.length
        = sampleStorage.transactions.length + 1) ∧
    (accountBalance (createTransaction sampleStorage 1 (-5) TxType.credit "oops" "Misc" "Shop" 0).1 1
        = some 95) :=
  ⟨by norm_num, rfl, by
    norm_num [accountBalance, createTransaction, findAccount, updateBalance,
      sampleStorage, acctA, acctB, List.find?]⟩

/-- C5 amended: `createTransaction` performs no amount validation — called
with any amount ≤ 0 on an existing account it still inserts the ledger entry
and applies the signed balance update (balance − amount for a debit, balance
+ amount for a credit). -/
theorem createTransaction_no_amount_validation (s : Storage) (accountId : Nat)
    (amount : Rat) (txType : TxType) (description category merchant : String)
    (now : Int) (acc : BankAccount)
    (h : findAccount s.accounts accountId = some acc)
    (hle : amount ≤ 0) :
    ∃ t : Transaction,
      (createTransaction s accountId amount txType description category merchant now).2 = t ∧
      (createTransaction s accountId amount txType description category merchant now).1.transactions
        = s.transactions ++ [t] ∧
      t.amount = amount ∧
      accountBalance
          (createTransaction s accountId amount txType description category merchant now).1
          accountId =
        some (match txType with
              | TxType.debit => acc.balance - amount
              | TxType.credit => acc.balance + amount) := by
  have hid : acc.id = accountId := findAccount_id _ _ _ h
  refine ⟨{ id := s.transactions.length + 1, accountId := accountId, amount := amount,
            description := description, category := category, merchant := merchant,
            txType := txType, date := now }, ?_, ?_, rfl, ?_⟩
  · simp [createTransaction, h]
  · simp [createTransaction, h]
  · simp [createTransaction, h, accountBalance, findAccount_updateBalance, hid]

/-- Witness for the amended C5: crediting −5 to the sample account. -/
theorem createTransaction_no_amount_validation_witness :
    ∃ t : Transaction,
      (createTransaction sampleStorage 1 (-5) TxType.credit "oops" "Misc" "Shop" 0).2 = t ∧
      (createTransaction sampleStorage 1 (-5) TxType.credit "oops" "Misc" "Shop" 0).1.transactions
        = sampleStorage.transactions ++ [t] ∧
      t.amount = -5 ∧
      accountBalance
          (createTransaction sampleStorage 1 (-5) TxType.credit "oops" "Misc" "Shop" 0).1 1 =
        some (match TxType.credit with
              | TxType.debit => acctA.balance - (-5)
              | TxType.credit => acctA.balance + (-5)) :=
  createTransaction_no_amount_validation sampleStorage 1 (-5) TxType.credit "oops" "Misc"
    "Shop" 0 acctA (by decide) (by norm_num)

/-! ### C6, C7 — `updateSavingGoal` -/

/-- Full behaviour of `updateSavingGoal` on an existing goal: it returns the
goal with the deposit added and the completion flag recomputed, and the found
row of the new state is that updated goal. -/
theorem updateSavingGoal_spec (s : Storage) (goalId : Nat) (amount : Rat)
    (goal : SavingGoal)
    (h : s.goals.find? (fun g => g.id == goalId) = some goal) :
    ∃ s2,
      updateSavingGoal s goalId amount =
        some (s2,
          { goal with
              currentAmount := goal.currentAmount + amount
              completed := decide (goal.targetAmount ≤ goal.currentAmount + amount) }) ∧
      s2.goals.find? (fun g => g.id == goalId) =
        some { goal with
                 currentAmount := goal.currentAmount + amount
                 completed := decide (goal.targetAmount ≤ goal.currentAmount + amount) } := by
  have hid : goal.id = goalId := by simpa using List.find?_some h
  simp only [updateSavingGoal, h]
  refine ⟨_, rfl, ?_⟩
  rw [find?_map_of_key SavingGoal.id _
    (fun g => by by_cases h2 : g.id = goalId <;> simp [h2]) goalId s.goals]
  simp [h, hid]

/-- C6: `updateSavingGoal` on an existing goal adds the deposit to the current
amount, sets the completed flag exactly when the new current amount reaches
the target, and returns the updated goal. -/
theorem updateSavingGoal_adds (s : Storage) (goalId : Nat) (amount : Rat)
    (goal : SavingGoal)
    (h : s.goals.find? (fun g => g.id == goalId) = some goal) :
    ∃ s2 g2, updateSavingGoal s goalId amount = some (s2, g2) ∧
      g2.currentAmount = goal.currentAmount + amount ∧
      (g2.completed = true ↔ goal.targetAmount ≤ goal.currentAmount + amount) ∧
      g2.targetAmount = goal.targetAmount := by
  obtain ⟨s2, e, -⟩ := updateSavingGoal_spec s goalId amount goal h
  exact ⟨s2, _, e, rfl, by simp, rfl⟩

/-- Witness for C6, with the spec scenario: target 500, current 450, deposit
60 — the goal ends at 510 and is completed. -/
theorem updateSavingGoal_adds_witness :
    (∃ s2 g2, updateSavingGoal goalStorage 1 60 = some (s2, g2) ∧
      g2.currentAmount = goalG.currentAmount + 60 ∧
      (g2.completed = true ↔ goalG.targetAmount ≤ goalG.currentAmount + 60) ∧
      g2.targetAmount = goalG.targetAmount) ∧
    (updateSavingGoal goalStorage 1 60).map
        (fun p => (p.2.currentAmount, p.2.completed)) = some ((510 : Rat), true) :=
  ⟨updateSavingGoal_adds goalStorage 1 60 goalG (by decide), by
    norm_num [updateSavingGoal, goalStorage, goalG, List.find?]⟩

/-- C7: two successive deposits accumulate — after `a1` then `a2` the current
amount is the initial amount plus both; the completed flag after each deposit
holds exactly when the cumulative amount has reached the target, and once set
it stays set under a further positive deposit. -/
theorem updateSavingGoal_two_deposits (s : Storage) (goalId : Nat) (a1 a2 : Rat)
    (goal : SavingGoal)
    (h : s.goals.find? (fun g => g.id == goalId) = some goal)
    (h1 : 0 < a1) (h2 : 0 < a2) :
    ∃ s1 g1 s2 g2,
      updateSavingGoal s goalId a1 = some (s1, g1) ∧
      updateSavingGoal s1 goalId a2 = some (s2, g2) ∧
      g2.currentAmount = goal.currentAmount + a1 + a2 ∧
      (g1.completed = true ↔ goal.targetAmount ≤ goal.currentAmount + a1) ∧
      (g2.completed = true ↔ goal.targetAmount ≤ goal.currentAmount + a1 + a2) ∧
      (g1.completed = true → g2.completed = true) := by
  obtain ⟨s1, e1, hf1⟩ := updateSavingGoal_spec s goalId a1 goal h
  obtain ⟨s2, e2, -⟩ := updateSavingGoal_spec s1 goalId a2 _ hf1
  refine ⟨s1, _, s2, _, e1, e2, rfl, by simp, by simp, ?_⟩
  intro hc
  have hcle : goal.targetAmount ≤ goal.currentAmount + a1 := by simpa using hc
  simp only [decide_eq_true_eq]
  linarith

/-- Witness for C7: deposits of 60 then 10 on the 450-of-500 sample goal. -/
theorem updateSavingGoal_two_deposits_witness :
    ∃ s1 g1 s2 g2,
      updateSavingGoal goalStorage 1 60 = some (s1, g1) ∧
      updateSavingGoal s1 1 10 = some (s2, g2) ∧
      g2.currentAmount = goalG.currentAmount + 60 + 10 ∧
      (g1.completed = true ↔ goalG.targetAmount ≤ goalG.currentAmount + 60) ∧
      (g2.completed = true ↔ goalG.targetAmount ≤ goalG.currentAmount + 60 + 10) ∧
      (g1.completed = true → g2.completed = true) :=
  updateSavingGoal_two_deposits goalStorage 1 60 10 goalG (by decide) (by decide) (by decide)

/-! ### C10 — read helpers return newest first -/

/-- Adjacent elements of a pairwise-related list are related. -/
theorem sorted_adjacent {α : Type} {r : α → α → Prop} {l : List α}
    (h : List.Pairwise r l) (i : Nat) (hi : i + 1 < l.length) :
    r (l.get ⟨i, Nat.lt_of_succ_lt hi⟩) (l.get ⟨i + 1, hi⟩) :=
  List.pairwise_iff_get.mp h ⟨i, Nat.lt_of_succ_lt hi⟩ ⟨i + 1, hi⟩
    (Fin.mk_lt_mk.mpr (Nat.lt_succ_self i))

/-- C10: the four read helpers return their rows newest first — in each list,
every element's date is at least the next element's date. -/
theorem readHelpers_sorted_newest_first (accounts : List BankAccount)
    (txTable : List Transaction) (jTable : List JournalEntry) (aTable : List AiAdvice)
    (userId accountId : Nat) :
    DateSortedTx (getTransactionsByAccountId txTable accountId) ∧
    DateSortedTx (getTransactionsByUserId accounts txTable userId) ∧
    DateSortedJe (getJournalEntriesByUserId jTable userId) ∧
    DateSortedAi (getAiAdvicesByUserId aTable userId) := by
  refine ⟨?_, ?_, ?_, ?_⟩ <;> intro i hi
  · exact sorted_adjacent (List.sorted_insertionSort txByDateDesc _) i hi
  · exact sorted_adjacent (List.sorted_insertionSort txByDateDesc _) i hi
  · exact sorted_adjacent (List.sorted_insertionSort jeByDateDesc _) i hi
  · exact sorted_adjacent (List.sorted_insertionSort aiByDateDesc _) i hi

/-! ### C9 — dominant mood is the first-encountered mode -/

/-- Bumping mood `m` raises its tally by one and leaves every other tally
unchanged. -/
theorem lookupCount_bump : ∀ (acc : List (String × Nat)) (m x : String),
    lookupCount (bumpMood acc m) x =
      if x = m then lookupCount acc x + 1 else lookupCount acc x
  | [], m, x => by
    by_cases h : x = m
    · subst h; simp [bumpMood, lookupCount]
    · have h2 : ¬(m = x) := fun e => h e.symm
      simp [bumpMood, lookupCount, h, h2]
  | (k, v) :: rest, m, x => by
    by_cases hk : k = m
    · subst hk
      by_cases hx : x = k
      · subst hx; simp [bumpMood, lookupCount]
      · have h2 : ¬(k = x) := fun e => hx e.symm
        simp [bumpMood, lookupCount, hx, h2]
    · by_cases hx : k = x
      · have hxm : ¬(x = m) := fun e => hk (hx.trans e)
        simp [bumpMood, lookupCount, hk, hx, hxm]
      · simp [bumpMood, lookupCount, hk, hx, lookupCount_bump rest m x]

/-- `keysOf` distributes over cons. -/
theorem keysOf_cons (k : String) (v : Nat) (acc : List (String × Nat)) :
    keysOf ((k, v) :: acc) = k :: keysOf acc := rfl

/-- Bumping mood `m` keeps the key list unchanged when `m` is already a key,
and appends `m` at the end otherwise. -/
theorem keysOf_bump : ∀ (acc : List (String × Nat)) (m : String),
    keysOf (bumpMood acc m) =
      if m ∈ keysOf acc then keysOf acc else keysOf acc ++ [m]
  | [], m => by simp [bumpMood, keysOf]
  | (k, v) :: rest, m => by
    by_cases hk : k = m
    · subst hk
      simp [bumpMood, keysOf_cons, List.mem_cons]
    · have h2 : ¬(m = k) := fun e => hk e.symm
      have hstep : bumpMood ((k, v) :: rest) m = (k, v) :: bumpMood rest m := by
        simp [bumpMood, hk]
      have hmem : (m ∈ keysOf ((k, v) :: rest)) ↔ (m ∈ keysOf rest) := by
        rw [keysOf_cons, List.mem_cons]
        exact or_iff_right h2
      by_cases hm : m ∈ keysOf rest
      · rw [hstep, keysOf_cons, keysOf_bump rest m, if_pos hm, if_pos (hmem.mpr hm),
          keysOf_cons]
      · rw [hstep, keysOf_cons, keysOf_bump rest m, if_neg hm,
          if_neg (fun hc => hm (hmem.mp hc)), keysOf_cons, List.cons_append]

/-- A present element's first index is inside the list. -/
theorem firstIdx_lt_length : ∀ (l : List String) (x : String), x ∈ l →
    firstIdx l x < l.length
  | a :: t, x, hx => by
    by_cases h : a = x
    · simp [firstIdx, h]
    · have hxt : x ∈ t := by
        rcases List.mem_cons.mp hx with h1 | h1
        · exact absurd h1.symm h
        · exact h1
      simp only [firstIdx, h, if_false, List.length_cons]
      exact Nat.succ_lt_succ (firstIdx_lt_length t x hxt)

/-- Appending on the right does not move the first index of a present
element. -/
theorem firstIdx_append_left : ∀ (l1 l2 : List String) (x : String), x ∈ l1 →
    firstIdx (l1 ++ l2) x = firstIdx l1 x
  | a :: t, l2, x, hx => by
    by_cases h : a = x
    · simp [firstIdx, h]
    · have hxt : x ∈ t := by
        rcases List.mem_cons.mp hx with h1 | h1
        · exact absurd h1.symm h
        · exact h1
      simp [firstIdx, h, firstIdx_append_left t l2 x hxt]

/-- The first index of an element absent from the left part lies past it. -/
theorem firstIdx_append_right : ∀ (l1 l2 : List String) (x : String), x ∉ l1 →
    firstIdx (l1 ++ l2) x = l1.length + firstIdx l2 x
  | [], l2, x, _ => by simp
  | a :: t, l2, x, hx => by
    have h : ¬(a = x) := fun e => hx (e ▸ List.mem_cons_self a t)
    have hxt : x ∉ t := fun ht => hx (List.mem_cons_of_mem a ht)
    have ih := firstIdx_append_right t l2 x hxt
    show firstIdx (a :: (t ++ l2)) x = (a :: t).length + firstIdx l2 x
    simp only [firstIdx, h, if_false, List.length_cons, ih]
    omega

/-- One counting step preserves the invariant, the processed list growing by
the counted mood. -/
theorem countsInv_bump {l : List String} {acc : List (String × Nat)}
    (h : CountsInv l acc) (m : String) : CountsInv (l ++ [m]) (bumpMood acc m) := by
  have hmem : ∀ a, a ∈ keysOf acc → a ∈ l := fun a ha => (h.mem_keys_iff a).1 ha
  have hstable : ∀ a, a ∈ keysOf acc → firstIdx (l ++ [m]) a = firstIdx l a :=
    fun a ha => firstIdx_append_left l [m] a (hmem a ha)
  refine ⟨?_, ?_, ?_, ?_⟩
  · intro x
    rw [lookupCount_bump, List.count_append]
    by_cases hx : x = m
    · subst hx
      rw [if_pos rfl, h.lookup_eq]
      simp
    · have h2 : ¬(m = x) := fun e => hx e.symm
      rw [if_neg hx, h.lookup_eq]
      simp [List.count_cons, h2]
  · rw [keysOf_bump]
    by_cases hm : m ∈ keysOf acc
    · rw [if_pos hm]; exact h.keys_nodup
    · rw [if_neg hm]
      simp [List.nodup_append, h.keys_nodup, hm]
  · intro x
    rw [keysOf_bump]
    by_cases hm : m ∈ keysOf acc
    · rw [if_pos hm]
      rw [h.mem_keys_iff, List.mem_append, List.mem_singleton]
      have hml : m ∈ l := hmem m hm
      constructor
      · exact fun hx => Or.inl hx
      · rintro (hx | rfl)
        · exact hx
        · exact hml
    · rw [if_neg hm]
      simp only [List.mem_append, List.mem_singleton, h.mem_keys_iff]
  · rw [keysOf_bump]
    by_cases hm : m ∈ keysOf acc
    · rw [if_pos hm]
      refine List.Pairwise.imp_of_mem ?_ h.keys_ordered
      intro a b ha hb hab
      rw [hstable a ha, hstable b hb]
      exact hab
    · rw [if_neg hm]
      rw [List.pairwise_append]
      refine ⟨?_, List.pairwise_singleton _ _, ?_⟩
      · refine List.Pairwise.imp_of_mem ?_ h.keys_ordered
        intro a b ha hb hab
        rw [hstable a ha, hstable b hb]
        exact hab
      · intro a ha b hb
        rw [List.mem_singleton] at hb
        subst hb
        have hal : a ∈ l := hmem a ha
        have hml : b ∉ l := fun hml2 => hm ((h.mem_keys_iff b).2 hml2)
        rw [hstable a ha, firstIdx_append_right l [b] b hml]
        have hz : firstIdx [b] b = 0 := by simp [firstIdx]
        rw [hz, Nat.add_zero]
        exact firstIdx_lt_length l a hal

/-- Folding the counting step over a mood list preserves the invariant. -/
theorem countsInv_foldl : ∀ (ms l : List String) (acc : List (String × Nat)),
    CountsInv l acc → CountsInv (l ++ ms) (List.foldl bumpMood acc ms)
  | [], l, acc, h => by simpa using h
  | m :: rest, l, acc, h => by
    have h2 := countsInv_foldl rest (l ++ [m]) (bumpMood acc m) (countsInv_bump h m)
    simpa [List.append_assoc] using h2

/-- The empty tally satisfies the invariant for the empty mood list. -/
theorem countsInv_nil : CountsInv [] [] :=
  ⟨fun _ => rfl, List.nodup_nil, fun x => by simp [keysOf], List.Pairwise.nil⟩

/-- The `moodCounts` object is a faithful, first-encounter-ordered tally of
the mood list. -/
theorem countsInv_moodCounts (ms : List String) : CountsInv ms (moodCounts ms) := by
  have h := countsInv_foldl ms [] [] countsInv_nil
  simpa [moodCounts] using h

/-- With no duplicate keys, each stored pair is its own lookup. -/
theorem lookupCount_of_mem : ∀ (acc : List (String × Nat)),
    (keysOf acc).Nodup → ∀ p ∈ acc, lookupCount acc p.1 = p.2
  | [], _, p, hp => absurd hp (List.not_mem_nil p)
  | (k, v) :: rest, hnd, p, hp => by
    have hnd2 := (List.nodup_cons.mp (by simpa [keysOf_cons] using hnd))
    rcases List.mem_cons.mp hp with rfl | hp2
    · simp [lookupCount]
    · have hp1 : p.1 ∈ keysOf rest := List.mem_map_of_mem Prod.fst hp2
      have hne : ¬(k = p.1) := fun e => hnd2.1 (e ▸ hp1)
      have hrest := lookupCount_of_mem rest hnd2.2 p hp2
      simp [lookupCount, hne, hrest]

/-- What the strict-maximum scan returns: either nothing beat the running
maximum and the initial candidate survives, or the result is the first entry
attaining the overall maximum tally, which strictly exceeds the initial
maximum. -/
theorem selectMood_spec : ∀ (cl : List (String × Nat)) (best : String) (maxCount : Nat),
    (selectMood best maxCount cl = best ∧ ∀ p ∈ cl, p.2 ≤ maxCount) ∨
    (∃ i, ∃ hi : i < cl.length,
      selectMood best maxCount cl = (cl.get ⟨i, hi⟩).1 ∧
      maxCount < (cl.get ⟨i, hi⟩).2 ∧
      (∀ j (hj : j < cl.length), (cl.get ⟨j, hj⟩).2 ≤ (cl.get ⟨i, hi⟩).2) ∧
      (∀ j (hj : j < cl.length), j < i → (cl.get ⟨j, hj⟩).2 < (cl.get ⟨i, hi⟩).2))
  | [], best, maxCount => Or.inl ⟨rfl, by simp⟩
  | (m, c) :: rest, best, maxCount => by
    by_cases hc : maxCount < c
    · have hstep : selectMood best maxCount ((m, c) :: rest) = selectMood m c rest := by
        simp [selectMood, hc]
      rw [hstep]
      rcases selectMood_spec rest m c with ⟨heq, hall⟩ | ⟨i, hi, heq, hlt, hmax, hfirst⟩
      · refine Or.inr ⟨0, Nat.succ_pos _, by simpa using heq, by simpa using hc, ?_, ?_⟩
        · intro j hj
          cases j with
          | zero => simp
          | succ j =>
            have hj2 : j < rest.length := Nat.lt_of_succ_lt_succ hj
            simpa using hall _ (List.get_mem rest j hj2)
        · intro j _ hji
          exact absurd hji (Nat.not_lt_zero j)
      · refine Or.inr ⟨i + 1, Nat.succ_lt_succ hi, by simpa using heq, ?_, ?_, ?_⟩
        · exact lt_trans hc (by simpa using hlt)
        · intro j hj
          cases j with
          | zero => simpa using le_of_lt (by simpa using hlt)
          | succ j =>
            have hj2 : j < rest.length := Nat.lt_of_succ_lt_succ hj
            simpa using hmax j hj2
        · intro j hj hji
          cases j with
          | zero => simpa using hlt
          | succ j =>
            have hj2 : j < rest.length := Nat.lt_of_succ_lt_succ hj
            simpa using hfirst j hj2 (Nat.lt_of_succ_lt_succ hji)
    · have hstep : selectMood best maxCount ((m, c) :: rest) =
          selectMood best maxCount rest := by
        simp [selectMood, hc]
      rw [hstep]
      have hcle : c ≤ maxCount := Nat.le_of_not_lt hc
      rcases selectMood_spec rest best maxCount with ⟨heq, hall⟩ | ⟨i, hi, heq, hlt, hmax, hfirst⟩
      · refine Or.inl ⟨heq, ?_⟩
        intro p hp
        rcases List.mem_cons.mp hp with rfl | hp2
        · exact hcle
        · exact hall p hp2
      · refine Or.inr ⟨i + 1, Nat.succ_lt_succ hi, by simpa using heq, by simpa using hlt, ?_, ?_⟩
        · intro j hj
          cases j with
          | zero =>
            simpa using le_trans hcle (le_of_lt (by simpa using hlt))
          | succ j =>
            have hj2 : j < rest.length := Nat.lt_of_succ_lt_succ hj
            simpa using hmax j hj2
        · intro j hj hji
          cases j with
          | zero =>
            simpa using lt_of_le_of_lt hcle (by simpa using hlt)
          | succ j =>
            have hj2 : j < rest.length := Nat.lt_of_succ_lt_succ hj
            simpa using hfirst j hj2 (Nat.lt_of_succ_lt_succ hji)

/-- On a nonempty mood list, the counting loop followed by the strict-maximum
scan picks a mood of the list with maximal occurrence count whose first
occurrence is no later than that of any other mood with the same count. -/
theorem selectMood_moodCounts_first_mode (ms : List String) (hne : ms ≠ []) :
    selectMood "neutral" 0 (moodCounts ms) ∈ ms ∧
    (∀ x ∈ ms, ms.count x ≤ ms.count (selectMood "neutral" 0 (moodCounts ms))) ∧
    (∀ x ∈ ms, ms.count x = ms.count (selectMood "neutral" 0 (moodCounts ms)) →
      firstIdx ms (selectMood "neutral" 0 (moodCounts ms)) ≤ firstIdx ms x) := by
  have hinv := countsInv_moodCounts ms
  rcases selectMood_spec (moodCounts ms) "neutral" 0 with
    ⟨heq, hall⟩ | ⟨i, hi, heq, hlt, hmax, hfirst⟩
  · exfalso
    obtain ⟨h0, t0, rfl⟩ : ∃ h0 t0, ms = h0 :: t0 := by
      cases ms with
      | nil => exact absurd rfl hne
      | cons a b => exact ⟨a, b, rfl⟩
    have hmem : h0 ∈ keysOf (moodCounts (h0 :: t0)) :=
      (hinv.mem_keys_iff h0).2 (List.mem_cons_self _ _)
    obtain ⟨p, hpmem, hp1⟩ := List.mem_map.mp hmem
    have hple := hall p hpmem
    have h2 := lookupCount_of_mem (moodCounts (h0 :: t0)) hinv.keys_nodup p hpmem
    rw [hinv.lookup_eq, hp1] at h2
    have h3 : 0 < (h0 :: t0).count h0 := by
      rw [List.count_cons_self]
      omega
    omega
  · have hir : ms.count ((moodCounts ms).get ⟨i, hi⟩).1 = ((moodCounts ms).get ⟨i, hi⟩).2 := by
      have hx := lookupCount_of_mem (moodCounts ms) hinv.keys_nodup
        ((moodCounts ms).get ⟨i, hi⟩) (List.get_mem (moodCounts ms) i hi)
      rw [hinv.lookup_eq] at hx
      exact hx
    have hrmem : selectMood "neutral" 0 (moodCounts ms) ∈ ms := by
      rw [heq]
      exact (hinv.mem_keys_iff _).1
        (List.mem_map_of_mem Prod.fst (List.get_mem (moodCounts ms) i hi))
    refine ⟨hrmem, ?_, ?_⟩
    · intro x hx
      obtain ⟨p, hpmem, hp1⟩ := List.mem_map.mp ((hinv.mem_keys_iff x).2 hx)
      obtain ⟨⟨n, hn⟩, hget⟩ := List.mem_iff_get.mp hpmem
      have hxc : ms.count x = ((moodCounts ms).get ⟨n, hn⟩).2 := by
        have h4 := lookupCount_of_mem (moodCounts ms) hinv.keys_nodup p hpmem
        rw [hinv.lookup_eq, hp1] at h4
        rw [hget]
        exact h4
      calc ms.count x = ((moodCounts ms).get ⟨n, hn⟩).2 := hxc
        _ ≤ ((moodCounts ms).get ⟨i, hi⟩).2 := hmax n hn
        _ = ms.count ((moodCounts ms).get ⟨i, hi⟩).1 := hir.symm
        _ = ms.count (selectMood "neutral" 0 (moodCounts ms)) := by rw [← heq]
    · intro x hx hceq
      obtain ⟨p, hpmem, hp1⟩ := List.mem_map.mp ((hinv.mem_keys_iff x).2 hx)
      obtain ⟨⟨n, hn⟩, hget⟩ := List.mem_iff_get.mp hpmem
      have hxc : ms.count x = ((moodCounts ms).get ⟨n, hn⟩).2 := by
        have h4 := lookupCount_of_mem (moodCounts ms) hinv.keys_nodup p hpmem
        rw [hinv.lookup_eq, hp1] at h4
        rw [hget]
        exact h4
      have hceq2 : ((moodCounts ms).get ⟨n, hn⟩).2 = ((moodCounts ms).get ⟨i, hi⟩).2 := by
        rw [← hxc, hceq, heq, hir]
      rcases lt_trichotomy n i with hni | hni | hni
      · exfalso
        have h5 := hfirst n hn hni
        omega
      · have hxr : x = selectMood "neutral" 0 (moodCounts ms) := by
          subst hni
          have hfin : (⟨n, hn⟩ : Fin (moodCounts ms).length) = ⟨n, hi⟩ := rfl
          rw [heq, ← hp1, ← hget, hfin]
        rw [hxr]
      · have hko : List.Pairwise (fun a b => firstIdx ms a < firstIdx ms b)
            (List.map Prod.fst (moodCounts ms)) := hinv.keys_ordered
        have hi2 : i < (List.map Prod.fst (moodCounts ms)).length := by
          simpa using hi
        have hn2 : n < (List.map Prod.fst (moodCounts ms)).length := by
          simpa using hn
        have h6 := List.pairwise_iff_get.mp hko ⟨i, hi2⟩ ⟨n, hn2⟩ (Fin.mk_lt_mk.mpr hni)
        have e1 : (List.map Prod.fst (moodCounts ms)).get ⟨i, hi2⟩ =
            ((moodCounts ms).get ⟨i, hi⟩).1 := by
          simp
        have e2 : (List.map Prod.fst (moodCounts ms)).get ⟨n, hn2⟩ =
            ((moodCounts ms).get ⟨n, hn⟩).1 := by
          simp
        rw [e1, e2] at h6
        rw [heq, ← hp1, ← hget]
        exact le_of_lt h6

/-- C9: the advice generator's dominant mood is the mode of the moods of the
five most recent journal entries — ties broken in favour of the mood first
encountered in the newest-first order the entries arrive in — and is
`"neutral"` when the user has no journal entries. -/
theorem primaryMood_is_first_mode (entries : List JournalEntry) :
    (entries = [] → primaryMood entries = "neutral") ∧
    (entries ≠ [] →
      primaryMood entries ∈ recentMoods entries ∧
      (∀ x ∈ recentMoods entries,
        (recentMoods entries).count x ≤
          (recentMoods entries).count (primaryMood entries)) ∧
      (∀ x ∈ recentMoods entries,
        (recentMoods entries).count x =
            (recentMoods entries).count (primaryMood entries) →
        firstIdx (recentMoods entries) (primaryMood entries) ≤
          firstIdx (recentMoods entries) x)) := by
  constructor
  · rintro rfl
    rfl
  · intro hne
    have hmsne : recentMoods entries ≠ [] := by
      cases entries with
      | nil => exact absurd rfl hne
      | cons e t => simp [recentMoods]
    have hpm : primaryMood entries =
        selectMood "neutral" 0 (moodCounts (recentMoods entries)) := by
      obtain ⟨h0, t0, hms0⟩ : ∃ h0 t0, recentMoods entries = h0 :: t0 := by
        cases hh : recentMoods entries with
        | nil => exact absurd hh hmsne
        | cons a b => exact ⟨a, b, rfl⟩
      simp [primaryMood, hms0]
    rw [hpm]
    exact selectMood_moodCounts_first_mode (recentMoods entries) hmsne

/-- Witness for C9 on three sample entries (happy, sad, happy): the dominant
mood is one of the recent moods. -/
theorem primaryMood_is_first_mode_witness :
    primaryMood [jeHappy1, jeSad, jeHappy2] ∈ recentMoods [jeHappy1, jeSad, jeHappy2] :=
  ((primaryMood_is_first_mode [jeHappy1, jeSad, jeHappy2]).2 (by simp)).1

end NeuroBank
